import Mathlib

/-!
Verification development for the kkm-paper repository's resilient
upstream-fetch subsystem: backoff policy, retrying fetchers (server-side
Azure-Functions proxy and browser-side client), the ephemeral response
cache, blob-name resolution, and the PDF acquisition pipeline.

All definitions are shallow embeddings of the TypeScript source.  Network
transports and blob storage are modelled as oracles (functions supplied as
parameters); JS numbers used as counts are modelled as `Nat`/`Int`.
-/

namespace KkmPaper

/-- Character for a single decimal digit, as JS renders it. -/
def digitChar (d : Nat) : Char :=
  if d = 0 then '0' else if d = 1 then '1' else if d = 2 then '2'
  else if d = 3 then '3' else if d = 4 then '4' else if d = 5 then '5'
  else if d = 6 then '6' else if d = 7 then '7' else if d = 8 then '8' else '9'

/-- Numeric value of a decimal digit character. -/
def digitVal (c : Char) : Nat :=
  if c = '0' then 0 else if c = '1' then 1 else if c = '2' then 2
  else if c = '3' then 3 else if c = '4' then 4 else if c = '5' then 5
  else if c = '6' then 6 else if c = '7' then 7 else if c = '8' then 8 else 9

/-- Accumulator-style decimal rendering of a natural number; the first
argument is fuel bounding the digit count (any fuel ≥ n is exact). -/
def natDigitsAux : Nat → Nat → List Char → List Char
  | 0, _, acc => acc
  | fuel + 1, n, acc =>
    if n = 0 then acc
    else natDigitsAux fuel (n / 10) (digitChar (n % 10) :: acc)

/-- Decimal rendering of a natural number (model of JS `${n}`). -/
def natDigits (n : Nat) : List Char :=
  if n = 0 then ['0'] else natDigitsAux n n []

/-- Read a digit string back as a number (proof device for injectivity). -/
def ofDigits (cs : List Char) : Nat :=
  cs.foldl (fun a c => 10 * a + digitVal c) 0

/-- Signed decimal rendering (model of JS `${i}` for an integral number). -/
def intDigits (i : Int) : List Char :=
  if i < 0 then '-' :: natDigits i.natAbs else natDigits i.toNat

/-! ### Cache keys

The ssSearch handler builds `search:${query}|${limit}|${offset}|${fields}`
and the ssPaper handler builds `paper:${paperId}|${fields}`, with a fixed
field list.  Keys are modelled as character lists. -/

/-- The fixed field projection requested from the upstream provider. -/
def searchFields : List Char :=
  "title,year,venue,authors,abstract,url,openAccessPdf".toList

/-- Key built by the ssSearch handler. -/
def searchCacheKey (query : List Char) (limit offset : Int) : List Char :=
  "search:".toList ++ query ++ '|' :: intDigits limit ++ '|' :: intDigits offset
    ++ '|' :: searchFields

/-- Key built by the ssPaper handler. -/
def paperCacheKey (paperId : List Char) : List Char :=
  "paper:".toList ++ paperId ++ '|' :: searchFields

/-! ### Retry-After parsing and backoff policy (server handlers) -/

/-- A `retry-after` header value, abstracted to the outcomes of the two JS
parses the code performs on it: `Number(v)` (`none` when NaN) and
`Date.parse(v)` (`none` when NaN); `present` is the truthiness of the raw
header value. -/
structure HeaderValue where
  present : Bool
  asNumber : Option Int
  asDate : Option Int
deriving DecidableEq

/-- A request/response with no `retry-after` header. -/
def absentHeader : HeaderValue := ⟨false, none, none⟩

/-- The `parseRetryAfterMs` of the ssSearch/ssPaper handlers: a positive
numeric value is seconds, converted to ms; otherwise an HTTP-date is turned
into a relative duration, clamped at zero; otherwise null. -/
def parseRetryAfterMs (v : HeaderValue) (now : Int) : Option Int :=
  if v.present then
    match v.asNumber with
    | some n =>
      if 0 < n then some (n * 1000)
      else
        match v.asDate with
        | some t => some (if 0 < t - now then t - now else 0)
        | none => none
    | none =>
      match v.asDate with
      | some t => some (if 0 < t - now then t - now else 0)
      | none => none
  else none

/-- Backoff `Math.min(8000, 500 * 2 ** (attempt - 1))`. -/
def expBackoff (attempt : Nat) : Int := min 8000 (500 * 2 ^ (attempt - 1))

/-- Delay chosen on the 429/503 path: `ra ?? Math.min(8000, 500 * 2 **
(attempt - 1))`. -/
def srvDelay (attempt : Nat) (ra : HeaderValue) (now : Int) : Int :=
  (parseRetryAfterMs ra now).getD (expBackoff attempt)

/-! ### Server-side retrying fetcher (`getWithRetry` in ssSearch/ssPaper) -/

/-- Raw transport outcome of one attempt: the server produced a terminal
response with a status and headers, or the request failed at network level
(timeout / no response).  The `e` id tags the thrown error object so that
propagation of the *last* error is expressible. -/
inductive SrvRaw where
  | response (status : Nat) (retryAfter : HeaderValue)
  | netFail (e : Nat)
deriving DecidableEq

/-- An error thrown by the axios call: either a response whose status was
rejected by `validateStatus`, or a network/timeout failure. -/
inductive SrvThrown where
  | httpStatus (status : Nat)
  | net (e : Nat)
deriving DecidableEq

/-- What the `await axios.get` yields to the handler code. -/
inductive SrvOutcome where
  | ok (status : Nat) (retryAfter : HeaderValue)
  | thrown (t : SrvThrown)
deriving DecidableEq

/-- Server `validateStatus: (s) => s >= 200 && s < 500`. -/
def srvValidateStatus (s : Nat) : Bool := decide (200 ≤ s) && decide (s < 500)

/-- axios resolves with the response when `validateStatus` accepts the
status and otherwise rejects with an error carrying that status. -/
def srvAxiosGet (raw : SrvRaw) : SrvOutcome :=
  match raw with
  | .response s ra => if srvValidateStatus s then .ok s ra else .thrown (.httpStatus s)
  | .netFail e => .thrown (.net e)

inductive SrvResult where
  | response (status : Nat)
  | raised (t : SrvThrown)
  | loopExit
deriving DecidableEq

/-- Observable behaviour of one `getWithRetry` call: its outcome, how many
upstream attempts it made, and the backoff delays it actually slept. -/
structure SrvRun where
  result : SrvResult
  attempts : Nat
  delays : List Int
deriving DecidableEq

def srvMaxAttempts : Nat := 4

/-- The `while (attempt < maxAttempts)` loop of the server `getWithRetry`,
driven by an oracle giving the raw outcome of each (1-indexed) attempt.
`fuel` is the number of loop iterations left (`maxAttempts - attempt`); the
fuel-0 case is the trailing `throw new Error("unexpected retry loop
exit")`. -/
def srvLoopAux (raw : Nat → SrvRaw) (now : Int) : Nat → Nat → SrvRun
  | 0, a => ⟨.loopExit, a, []⟩
  | fuel + 1, a =>
    let att := a + 1
    match srvAxiosGet (raw att) with
    | .ok s ra =>
      if s = 429 ∨ s = 503 then
        if srvMaxAttempts ≤ att then ⟨.response s, att, []⟩
        else
          let rest := srvLoopAux raw now fuel att
          ⟨rest.result, rest.attempts, srvDelay att ra now :: rest.delays⟩
      else ⟨.response s, att, []⟩
    | .thrown t =>
      if srvMaxAttempts ≤ att then ⟨.raised t, att, []⟩
      else
        let rest := srvLoopAux raw now fuel att
        ⟨rest.result, rest.attempts, expBackoff att :: rest.delays⟩

def srvGetWithRetry (raw : Nat → SrvRaw) (now : Int) : SrvRun :=
  srvLoopAux raw now srvMaxAttempts 0

/-! ### Browser-side retrying fetcher (`getWithRetry` in the client API) -/

/-- The client's view of the `retry-after` header: truthiness of the raw
value and the result of `Number(ra)` (`none` when NaN). -/
structure CliRetryAfter where
  truthy : Bool
  asNumber : Option Int
deriving DecidableEq

/-- Model of the browser `AxiosError`: optional response status, error
code, whether the message contains "Network Error", and the header. -/
structure CliErr where
  status : Option Nat
  code : Option String
  msgNetworkError : Bool
  ra : CliRetryAfter
deriving DecidableEq

inductive CliRaw (V : Type) where
  | success (data : V)
  | failure (e : CliErr)

inductive CliResult (V : Type) where
  | ok (data : V)
  | raised (e : CliErr)
  | loopExit

structure CliRun (V : Type) where
  result : CliResult V
  attempts : Nat
  delays : List Int

/-- Retryability test `status === 429 || status === 503 || err.code === "ECONNABORTED" ||
err.message?.includes("Network Error")`. -/
def cliRetryable (e : CliErr) : Bool :=
  e.status == some 429 || e.status == some 503
    || e.code == some "ECONNABORTED" || e.msgNetworkError

/-- Client hint `ra && !Number.isNaN(Number(ra)) ? Number(ra) * 1000 : null`. -/
def cliRetryAfterMs (e : CliErr) : Option Int :=
  if e.ra.truthy then
    match e.ra.asNumber with
    | some n => some (n * 1000)
    | none => none
  else none

def cliMaxAttempts : Nat := 4

/-- The client `getWithRetry` loop. -/
def cliLoopAux {V : Type} (raw : Nat → CliRaw V) : Nat → Nat → CliRun V
  | 0, a => ⟨.loopExit, a, []⟩
  | fuel + 1, a =>
    let att := a + 1
    match raw att with
    | .success d => ⟨.ok d, att, []⟩
    | .failure e =>
      if cliRetryable e = false ∨ cliMaxAttempts ≤ att then ⟨.raised e, att, []⟩
      else
        let rest := cliLoopAux raw fuel att
        ⟨rest.result, rest.attempts,
          (cliRetryAfterMs e).getD (expBackoff att) :: rest.delays⟩

def cliGetWithRetry {V : Type} (raw : Nat → CliRaw V) : CliRun V :=
  cliLoopAux raw cliMaxAttempts 0

structure CacheEntry (V : Type) where
  expiresAt : Int
  value : V
deriving DecidableEq

/-! ### Ephemeral response cache and proxy handlers -/

/-- The module-level `Map` cache as an association list; a new binding
shadows any previous one for its key, matching `Map.set` overwrite. -/
abbrev Cache (V : Type) := List (String × CacheEntry V)

def cacheGet {V : Type} (c : Cache V) (k : String) : Option (CacheEntry V) :=
  List.lookup k c

def cacheSet {V : Type} (c : Cache V) (k : String) (e : CacheEntry V) : Cache V :=
  (k, e) :: c

/-- Final outcome of the upstream fetch as the handler observes it: the
`getWithRetry` result's status and parsed JSON data. -/
structure Upstream (V : Type) where
  status : Nat
  data : V

inductive SsResponse (V : Type) where
  | okBody (v : V)
  | errEnvelope (status : Nat) (v : V)

/-- Fetch-or-error tail of the handlers: a status ≥ 400 is passed through
verbatim and nothing is cached; otherwise the value is cached under the
key with the handler's TTL and served with status 200. -/
def ssUpstreamPhase {V : Type} (c : Cache V) (key : String) (now ttl : Int)
    (up : Upstream V) : SsResponse V × Cache V × Bool :=
  if 400 ≤ up.status then (.errEnvelope up.status up.data, c, true)
  else (.okBody up.data, cacheSet c key ⟨now + ttl, up.data⟩, true)

/-- Cache consultation performed before `getWithRetry`:
`if (hit && hit.expiresAt > now) return jsonResponse(200, hit.value)`.
The Bool records whether the upstream fetcher was invoked at all. -/
def ssFetchPhase {V : Type} (c : Cache V) (key : String) (now ttl : Int)
    (up : Upstream V) : SsResponse V × Cache V × Bool :=
  match cacheGet c key with
  | some hit =>
    if hit.expiresAt > now then (.okBody hit.value, c, false)
    else ssUpstreamPhase c key now ttl up
  | none => ssUpstreamPhase c key now ttl up

def searchTtlMs : Int := 20000

def paperTtlMs : Int := 60000

/-! ### Request validation and parameter clamping -/

/-- A query-string parameter as seen through JS `Number(...)`: absent,
present but not numeric (NaN), or a number (integral numbers modelled as
`Int`). -/
inductive QueryParam where
  | absent
  | nonNumeric
  | numeric (n : Int)
deriving DecidableEq

/-- Effective limit `Math.min(Number(req.query.get("limit") ?? "10") || 10, 100)`. -/
def effLimit (p : QueryParam) : Int :=
  match p with
  | .absent => min 10 100
  | .nonNumeric => min 10 100
  | .numeric n => min (if n = 0 then 10 else n) 100

/-- Effective offset `Math.max(Number(req.query.get("offset") ?? "0") || 0, 0)`. -/
def effOffset (p : QueryParam) : Int :=
  match p with
  | .absent => max 0 0
  | .nonNumeric => max 0 0
  | .numeric n => max (if n = 0 then 0 else n) 0

/-- Model of JS `String.prototype.trim`: strip leading and trailing
whitespace. -/
def jsTrim (s : String) : String :=
  (((s.toList.dropWhile Char.isWhitespace).reverse.dropWhile
    Char.isWhitespace).reverse).asString

/-- ssSearch handler: trim the query, clamp limit/offset, reject an empty
query with HTTP 400 before any upstream call, then run the cached fetch.
Returns (HTTP status, new cache, whether upstream was called). -/
def ssSearchHandler {V : Type} (rawQuery : Option String) (limitP offsetP : QueryParam)
    (c : Cache V) (now : Int) (up : Upstream V) : Nat × Cache V × Bool :=
  let query := jsTrim (rawQuery.getD "")
  if query = "" then (400, c, false)
  else
    let key := (searchCacheKey query.toList (effLimit limitP) (effOffset offsetP)).asString
    match ssFetchPhase c key now searchTtlMs up with
    | (.okBody _, c2, called) => (200, c2, called)
    | (.errEnvelope s _, c2, called) => (s, c2, called)

/-- ssPaper handler: trim the paper id, reject an empty id with HTTP 400
before any upstream call, then run the cached fetch. -/
def ssPaperHandler {V : Type} (paperIdRaw : Option String)
    (c : Cache V) (now : Int) (up : Upstream V) : Nat × Cache V × Bool :=
  let paperId := jsTrim (paperIdRaw.getD "")
  if paperId = "" then (400, c, false)
  else
    let key := (paperCacheKey paperId.toList).asString
    match ssFetchPhase c key now paperTtlMs up with
    | (.okBody _, c2, called) => (200, c2, called)
    | (.errEnvelope s _, c2, called) => (s, c2, called)

/-! ### Blob-name resolution and the store handler's upload step -/

/-- The i-th candidate probed by `resolveUniqueBlobName`:
`${base}${ext}` for i = 0, `${base}(${i})${ext}` afterwards. -/
def candidateName (base ext : String) (i : Nat) : String :=
  if i = 0 then base ++ ext
  else base ++ "(" ++ (natDigits i).asString ++ ")" ++ ext

/-- The `while (i < 999)` probe loop of `resolveUniqueBlobName`; `ex` is
the storage existence oracle (`blobClient.exists()`), `fuel` the number of
iterations left. -/
def resolveGo (ex : String → Bool) (base ext : String) : Nat → Nat → Except Unit String
  | 0, _ => .error ()
  | fuel + 1, i =>
    if ex (candidateName base ext i) = false then .ok (candidateName base ext i)
    else resolveGo ex base ext fuel (i + 1)

def resolveUniqueBlobName (ex : String → Bool) (base ext : String) : Except Unit String :=
  resolveGo ex base ext 999 0

/-! ### JSON sibling name and the upload step (storePaper) -/

/-- Test of the regex `/\.pdf$/i`: the last four characters are `.pdf`
up to letter case. -/
def pdfExtMatch (cs : List Char) : Bool :=
  match cs.reverse with
  | f :: d :: p :: dot :: _ =>
    (f == 'f' || f == 'F') && (d == 'd' || d == 'D')
      && (p == 'p' || p == 'P') && dot == '.'
  | _ => false

/-- Derivation `pdfBlobName.replace(/\.pdf$/i, ".json")`. -/
def pdfToJsonName (s : String) : String :=
  if pdfExtMatch s.toList then (s.toList.take (s.toList.length - 4)).asString ++ ".json"
  else s

/-- Blob storage as content by name; uploads overwrite unconditionally. -/
abbrev Storage := String → Option (List Nat)

def blobExists (st : Storage) (name : String) : Bool := (st name).isSome

def blobUpload (st : Storage) (name : String) (bytes : List Nat) : Storage :=
  fun n => if n = name then some bytes else st n

/-- Name resolution and the two uploads of the storePaper handler: the
collision probe runs only for the `.pdf` name; the `.json` name is derived
from the resolved pdf name and uploaded with no existence check of its
own. -/
def storeUploadPhase (st : Storage) (base : String) (pdfBytes jsonBytes : List Nat) :
    Except Unit (Storage × String × String) :=
  match resolveUniqueBlobName (blobExists st) base ".pdf" with
  | .error e => .error e
  | .ok pdfBlobName =>
    let jsonBlobName := pdfToJsonName pdfBlobName
    let st1 := blobUpload st pdfBlobName pdfBytes
    let st2 := blobUpload st1 jsonBlobName jsonBytes
    .ok (st2, pdfBlobName, jsonBlobName)

/-! ### PDF acquisition pipeline (storePaper / downloadPdfWithFallback) -/

/-- An outgoing request of the pipeline, reduced to the fields the
fallback logic manipulates: target URL, Referer header, optional Cookie
header (the remaining browser-like headers are fixed constants). -/
structure Request where
  url : String
  referer : String
  cookie : Option String
deriving DecidableEq

/-- Raw transport outcome: a terminal response (status, body bytes,
`set-cookie` headers) or a network-level failure (timeout / no
response). -/
inductive RawResult where
  | response (status : Nat) (body : List Nat) (setCookie : List String)
  | netFail
deriving DecidableEq

/-- What an axios call configured with `validateStatus: (s) => s >= 200 &&
s < 400` yields to the surrounding code. -/
inductive AxReply where
  | ok (status : Nat) (body : List Nat) (setCookie : List String)
  | errStatus (status : Nat)
  | errNet
deriving DecidableEq

def pdfValidateStatus (s : Nat) : Bool := decide (200 ≤ s) && decide (s < 400)

/-- axios resolves with the response when `validateStatus` accepts its
status, rejects with an error carrying the status otherwise, and rejects
with a response-less error on network failure. -/
def axRequest (net : Request → RawResult) (r : Request) : AxReply :=
  match net r with
  | .response s b ck => if pdfValidateStatus s then .ok s b ck else .errStatus s
  | .netFail => .errNet

/-- Error propagated out of the pipeline. -/
inductive DlErr where
  | httpStatus (status : Nat)
  | net
deriving DecidableEq

/-- A URL as the pipeline sees it: the raw string plus the
hostname/pathname that `new URL(url)` extracts (`valid` is false when the
constructor throws). -/
structure UrlParts where
  valid : Bool
  hostname : String
  pathname : String
  raw : String
deriving DecidableEq

/-- Substring test `haystack.includes(needle)` on characters. -/
def listContainsSub (needle : List Char) : List Char → Bool
  | [] => needle.isEmpty
  | c :: rest => List.isPrefixOf needle (c :: rest) || listContainsSub needle rest

/-- Check `u.hostname.endsWith("mdpi.com") && u.pathname.includes("/pdf")`,
false when URL parsing failed. -/
def isMdpiPdfUrl (u : UrlParts) : Bool :=
  u.valid && List.isSuffixOf "mdpi.com".toList u.hostname.toList
    && listContainsSub "/pdf".toList u.pathname.toList

/-- JS line terminators, which `.` does not match. -/
def isLineTerm (c : Char) : Bool :=
  c == '\n' || c == '\r' || c == Char.ofNat 0x2028 || c == Char.ofNat 0x2029

/-- Does `/\/pdf(\?.*)?$/` match at the head of `cs`? -/
def pdfSuffixHere : List Char → Bool
  | '/' :: 'p' :: 'd' :: 'f' :: rest =>
    match rest with
    | [] => true
    | '?' :: tail => !tail.any isLineTerm
    | _ => false
  | _ => false

/-- Replacement `pdfUrl.replace(/\/pdf(\?.*)?$/, "")`: delete from the leftmost match
position through to the end of the string. -/
def stripPdfList : List Char → List Char
  | [] => []
  | c :: rest => if pdfSuffixHere (c :: rest) then [] else c :: stripPdfList rest

def stripPdfSuffix (s : String) : String := (stripPdfList s.toList).asString

/-- First segment `c.split(";")[0]`: the cookie pair before any attributes. -/
def cookieFirstPartList : List Char → List Char
  | [] => []
  | c :: rest => if c = ';' then [] else c :: cookieFirstPartList rest

def cookieFirstPart (c : String) : String := (cookieFirstPartList c.toList).asString

/-- Join `setCookie.map((c) => c.split(";")[0]).join("; ")`. -/
def joinCookieParts : List String → String
  | [] => ""
  | [c] => cookieFirstPart c
  | c :: rest => cookieFirstPart c ++ "; " ++ joinCookieParts rest

def mdpiHome : String := "https://www.mdpi.com/"

/-- The first, direct GET of the PDF: Referer defaults to the paper's
landing page, falling back to the publisher home. -/
def directRequest (u : UrlParts) (paperUrl : Option String) : Request :=
  ⟨u.raw, paperUrl.getD mdpiHome, none⟩

/-- The landing-page GET of the fallback: the pdf URL with its `/pdf`
suffix stripped, Referer the publisher home. -/
def landingRequest (u : UrlParts) : Request :=
  ⟨stripPdfSuffix u.raw, mdpiHome, none⟩

/-- Header `Array.isArray(setCookie) && setCookie.length > 0 ? ...join... : ""`. -/
def cookieHeaderOf (setCookie : List String) : String :=
  if setCookie.length > 0 then joinCookieParts setCookie else ""

/-- The fallback's retry of the original pdf URL: Referer is the landing
page, and the harvested cookies are attached when non-empty. -/
def retryRequest (u : UrlParts) (setCookie : List String) : Request :=
  ⟨u.raw, stripPdfSuffix u.raw,
    if cookieHeaderOf setCookie ≠ "" then some (cookieHeaderOf setCookie) else none⟩

/-- The `downloadPdfWithFallback` pipeline: try the direct GET; on a thrown 403 for an
MDPI pdf URL, GET the landing page, harvest its `set-cookie` headers, and
retry the pdf URL with those cookies and the landing page as Referer; any
other failure propagates.  Returns the outcome paired with the trace of
requests issued. -/
def downloadPdfWithFallback (net : Request → RawResult) (u : UrlParts)
    (paperUrl : Option String) : Except DlErr (List Nat) × List Request :=
  match axRequest net (directRequest u paperUrl) with
  | .ok _ body _ => (.ok body, [directRequest u paperUrl])
  | .errStatus s =>
    if s = 403 ∧ isMdpiPdfUrl u = true then
      match axRequest net (landingRequest u) with
      | .ok _ _ setCookie =>
        match axRequest net (retryRequest u setCookie) with
        | .ok _ body2 _ =>
          (.ok body2, [directRequest u paperUrl, landingRequest u, retryRequest u setCookie])
        | .errStatus s2 =>
          (.error (.httpStatus s2),
            [directRequest u paperUrl, landingRequest u, retryRequest u setCookie])
        | .errNet =>
          (.error .net, [directRequest u paperUrl, landingRequest u, retryRequest u setCookie])
      | .errStatus s2 => (.error (.httpStatus s2), [directRequest u paperUrl, landingRequest u])
      | .errNet => (.error .net, [directRequest u paperUrl, landingRequest u])
    else (.error (.httpStatus s), [directRequest u paperUrl])
  | .errNet => (.error .net, [directRequest u paperUrl])

/-- Value of a base64 alphabet character; `Buffer.from(s, "base64")`
accepts both the standard and url-safe alphabets and skips every other
character (whitespace, `=` padding, junk). -/
def b64Val (c : Char) : Option Nat :=
  if 'A' ≤ c ∧ c ≤ 'Z' then some (c.toNat - 65)
  else if 'a' ≤ c ∧ c ≤ 'z' then some (c.toNat - 71)
  else if '0' ≤ c ∧ c ≤ '9' then some (c.toNat + 4)
  else if c = '+' ∨ c = '-' then some 62
  else if c = '/' ∨ c = '_' then some 63
  else none

/-- Groups of four 6-bit values become three bytes; a trailing group of
three yields two bytes, of two yields one byte, of one nothing. -/
def b64Groups : List Nat → List Nat
  | a :: b :: c :: d :: rest =>
    (a * 4 + b / 16) :: ((b % 16) * 16 + c / 4) :: ((c % 4) * 64 + d) :: b64Groups rest
  | [a, b, c] => [a * 4 + b / 16, (b % 16) * 16 + c / 4]
  | [a, b] => [a * 4 + b / 16]
  | _ => []

/-- Model of Node `Buffer.from(s, "base64")`. -/
def base64Decode (s : String) : List Nat :=
  b64Groups (s.toList.filterMap b64Val)

/-- Data-URL strip `b64.includes(",") ? b64.split(",")[1] : b64`: with a comma present,
the segment between the first and second comma (a data-URL prefix is
everything up to the first comma). -/
def afterFirstComma : List Char → List Char
  | [] => []
  | c :: rest => if c = ',' then rest else afterFirstComma rest

def upToComma : List Char → List Char
  | [] => []
  | c :: rest => if c = ',' then [] else c :: upToComma rest

def stripDataUrl (s : String) : String :=
  if s.toList.contains ',' then (upToComma (afterFirstComma s.toList)).asString else s

/-- The `download_pdf` step of storePaper: truthy precomputed base64 bytes
are decoded (after stripping a data-URL prefix) with no network activity;
otherwise the URL pipeline runs. -/
def acquirePdf (net : Request → RawResult) (pdfBase64 : Option String)
    (u : UrlParts) (paperUrl : Option String) :
    Except DlErr (List Nat) × List Request :=
  match pdfBase64 with
  | some b64 =>
    if b64 = "" then downloadPdfWithFallback net u paperUrl
    else (.ok (base64Decode (stripDataUrl b64)), [])
  | none => downloadPdfWithFallback net u paperUrl

/-! ### Theorems -/

theorem digitVal_digitChar {d : Nat} (h : d < 10) : digitVal (digitChar d) = d := by
  interval_cases d <;> rfl

theorem digitChar_ne_pipe (d : Nat) : digitChar d ≠ '|' := by
  unfold digitChar
  repeat' split
  all_goals decide

theorem digitChar_ne_dash (d : Nat) : digitChar d ≠ '-' := by
  unfold digitChar
  repeat' split
  all_goals decide

theorem ofDigits_append_singleton (xs : List Char) (c : Char) :
    ofDigits (xs ++ [c]) = 10 * ofDigits xs + digitVal c := by
  simp [ofDigits, List.foldl_append]

theorem natDigitsAux_zero (fuel : Nat) :
    ∀ acc : List Char, natDigitsAux fuel 0 acc = acc := by
  cases fuel <;> intro acc <;> simp [natDigitsAux]

theorem natDigitsAux_append (fuel : Nat) :
    ∀ (n : Nat) (acc : List Char),
      natDigitsAux fuel n acc = natDigitsAux fuel n [] ++ acc := by
  induction fuel with
  | zero => intro n acc; simp [natDigitsAux]
  | succ f ih =>
    intro n acc
    rw [natDigitsAux, natDigitsAux]
    by_cases hn : n = 0
    · simp [hn]
    · rw [if_neg hn, if_neg hn, ih (n / 10) (digitChar (n % 10) :: acc),
        ih (n / 10) (digitChar (n % 10) :: [])]
      simp

theorem ofDigits_natDigitsAux (fuel : Nat) :
    ∀ n : Nat, 0 < n → n ≤ fuel → ofDigits (natDigitsAux fuel n []) = n := by
  induction fuel with
  | zero => intro n h1 h2; omega
  | succ f ih =>
    intro n h1 h2
    rw [natDigitsAux, if_neg (by omega), natDigitsAux_append]
    rcases Nat.eq_zero_or_pos (n / 10) with hq | hq
    · rw [hq, natDigitsAux_zero]
      have hlt : n < 10 := by omega
      simp only [List.nil_append, ofDigits, List.foldl_cons, List.foldl_nil]
      rw [digitVal_digitChar (Nat.mod_lt _ (by omega))]
      omega
    · rw [ofDigits_append_singleton,
        ih (n / 10) hq (by omega),
        digitVal_digitChar (Nat.mod_lt _ (by omega))]
      omega

theorem ofDigits_natDigits (n : Nat) : ofDigits (natDigits n) = n := by
  unfold natDigits
  split
  · simp [ofDigits, digitVal]
    omega
  · exact ofDigits_natDigitsAux n n (by omega) (by omega)

theorem natDigits_inj {a b : Nat} (h : natDigits a = natDigits b) : a = b := by
  have := congrArg ofDigits h
  rwa [ofDigits_natDigits, ofDigits_natDigits] at this

theorem natDigits_ne_nil (n : Nat) : natDigits n ≠ [] := by
  unfold natDigits
  split
  · simp
  · intro h
    have hofd := ofDigits_natDigitsAux n n (by omega) (by omega)
    rw [h] at hofd
    simp [ofDigits] at hofd
    omega

theorem natDigitsAux_not_mem {c : Char} (hc : ∀ d, digitChar d ≠ c) (fuel : Nat) :
    ∀ (n : Nat) (acc : List Char), c ∉ acc → c ∉ natDigitsAux fuel n acc := by
  induction fuel with
  | zero => intro n acc hacc; simpa [natDigitsAux] using hacc
  | succ f ih =>
    intro n acc hacc
    rw [natDigitsAux]
    by_cases hn : n = 0
    · simpa [hn] using hacc
    · rw [if_neg hn]
      refine ih (n / 10) _ ?_
      intro hmem
      rcases List.mem_cons.mp hmem with h | h
      · exact hc _ h.symm
      · exact hacc h

theorem natDigits_not_mem {c : Char} (hc : ∀ d, digitChar d ≠ c) (n : Nat) :
    c ∉ natDigits n := by
  unfold natDigits
  split
  · intro h
    rcases List.mem_singleton.mp h with rfl
    exact hc 0 rfl
  · exact natDigitsAux_not_mem hc n n [] (List.not_mem_nil c)

theorem natDigits_no_pipe (n : Nat) : '|' ∉ natDigits n :=
  natDigits_not_mem digitChar_ne_pipe n

theorem natDigits_no_dash (n : Nat) : '-' ∉ natDigits n :=
  natDigits_not_mem digitChar_ne_dash n

theorem intDigits_no_pipe (i : Int) : '|' ∉ intDigits i := by
  unfold intDigits
  split
  · intro h
    rcases List.mem_cons.mp h with h | h
    · exact absurd h (by decide)
    · exact natDigits_no_pipe _ h
  · exact natDigits_no_pipe _

theorem intDigits_inj {a b : Int} (h : intDigits a = intDigits b) : a = b := by
  unfold intDigits at h
  split at h <;> split at h
  · rename_i ha hb
    have := natDigits_inj (List.cons.inj h).2
    omega
  · exact absurd (h ▸ List.mem_cons_self '-' _) (natDigits_no_dash _)
  · exact absurd (h.symm ▸ List.mem_cons_self '-' _) (natDigits_no_dash _)
  · rename_i ha hb
    have := natDigits_inj h
    omega

/-- Splitting at a reserved separator character is unambiguous when the
left part avoids the separator. -/
theorem pipe_split {xs ys xs' ys' : List Char}
    (hx : '|' ∉ xs) (hx' : '|' ∉ xs')
    (h : xs ++ '|' :: ys = xs' ++ '|' :: ys') : xs = xs' ∧ ys = ys' := by
  induction xs generalizing xs' with
  | nil =>
    cases xs' with
    | nil => simpa using h
    | cons c t =>
      simp only [List.nil_append, List.cons_append, List.cons.injEq] at h
      exact absurd (h.1 ▸ List.mem_cons_self c t) hx'
  | cons c t ih =>
    cases xs' with
    | nil =>
      simp only [List.nil_append, List.cons_append, List.cons.injEq] at h
      exact absurd (h.1.symm ▸ List.mem_cons_self c t) hx
    | cons c' t' =>
      simp only [List.cons_append, List.cons.injEq] at h
      have ht := ih (fun hm => hx (List.mem_cons_of_mem c hm))
        (fun hm => hx' (List.mem_cons_of_mem c' hm)) h.2
      exact ⟨by rw [h.1, ht.1], ht.2⟩

theorem searchFields_no_pipe : '|' ∉ searchFields := by decide

/-- A query/limit/offset key determines its three components: the limit and
offset renderings are pipe-free, so they are recoverable as the last two
pipe-separated segments before the fixed field list. -/
theorem tail3_split {q q' A A' B B' F : List Char}
    (hA : '|' ∉ A) (hA' : '|' ∉ A') (hB : '|' ∉ B) (hB' : '|' ∉ B')
    (h : q ++ '|' :: (A ++ '|' :: (B ++ '|' :: F))
      = q' ++ '|' :: (A' ++ '|' :: (B' ++ '|' :: F))) :
    q = q' ∧ A = A' ∧ B = B' := by
  have h' := congrArg List.reverse h
  simp only [List.reverse_append, List.reverse_cons, List.append_eq,
    List.append_assoc, List.cons_append, List.singleton_append,
    List.nil_append] at h'
  have h1 := List.append_cancel_left h'
  have h2 := List.cons.inj h1
  obtain ⟨hB2, h3⟩ := pipe_split (by simpa using hB) (by simpa using hB') h2.2
  obtain ⟨hA2, hq2⟩ := pipe_split (by simpa using hA) (by simpa using hA') h3
  exact ⟨List.reverse_injective hq2, List.reverse_injective hA2,
    List.reverse_injective hB2⟩

/-- C7: cache-key construction is injective over logical requests: search
keys for (query, limit, offset) collide exactly on identical triples, paper
keys collide exactly on identical ids, and the search and paper key spaces
are disjoint. -/
theorem C7_cache_key_injective :
    (∀ (q q' : List Char) (l l' o o' : Int),
      searchCacheKey q l o = searchCacheKey q' l' o' ↔ (q = q' ∧ l = l' ∧ o = o')) ∧
    (∀ pid pid' : List Char, paperCacheKey pid = paperCacheKey pid' ↔ pid = pid') ∧
    (∀ (q : List Char) (l o : Int) (pid : List Char),
      searchCacheKey q l o ≠ paperCacheKey pid) := by
  refine ⟨?_, ?_, ?_⟩
  · intro q q' l l' o o'
    constructor
    · intro h
      unfold searchCacheKey at h
      simp only [List.append_assoc, List.cons_append] at h
      have h1 := List.append_cancel_left h
      obtain ⟨hq, hl, ho⟩ := tail3_split (intDigits_no_pipe l) (intDigits_no_pipe l')
        (intDigits_no_pipe o) (intDigits_no_pipe o') h1
      exact ⟨hq, intDigits_inj hl, intDigits_inj ho⟩
    · rintro ⟨rfl, rfl, rfl⟩
      rfl
  · intro pid pid'
    constructor
    · intro h
      unfold paperCacheKey at h
      simp only [List.append_assoc, List.cons_append] at h
      have h1 := List.append_cancel_left h
      exact List.append_cancel_right h1
    · rintro rfl
      rfl
  · intro q l o pid h
    have hs : "search:".toList = 's' :: "earch:".toList := rfl
    have hp : "paper:".toList = 'p' :: "aper:".toList := rfl
    rw [searchCacheKey, paperCacheKey, hs, hp, List.cons_append, List.cons_append] at h
    exact absurd (List.cons.inj h).1 (by decide)

theorem C7_cache_key_injective_witness :
    searchCacheKey "q".toList 10 0 ≠ paperCacheKey "q".toList :=
  C7_cache_key_injective.2.2 "q".toList 10 0 "q".toList

theorem srvLoopAux_attempts_ge (raw : Nat → SrvRaw) (now : Int) :
    ∀ (fuel a : Nat), a ≤ (srvLoopAux raw now fuel a).attempts := by
  intro fuel
  induction fuel with
  | zero => intro a; simp [srvLoopAux]
  | succ f ih =>
    intro a
    have hrec := ih (a + 1)
    rw [srvLoopAux]
    rcases srvAxiosGet (raw (a + 1)) with ⟨s, ra⟩ | t <;> dsimp only <;>
      split_ifs <;> dsimp only <;> omega

theorem srvLoopAux_attempts_le (raw : Nat → SrvRaw) (now : Int) :
    ∀ (fuel a : Nat), (srvLoopAux raw now fuel a).attempts ≤ a + fuel := by
  intro fuel
  induction fuel with
  | zero => intro a; simp [srvLoopAux]
  | succ f ih =>
    intro a
    have hrec := ih (a + 1)
    rw [srvLoopAux]
    rcases srvAxiosGet (raw (a + 1)) with ⟨s, ra⟩ | t <;> dsimp only <;>
      split_ifs <;> dsimp only <;> omega

theorem srvLoopAux_step (raw : Nat → SrvRaw) (now : Int) (fuel a : Nat) :
    srvLoopAux raw now (fuel + 1) a =
      match srvAxiosGet (raw (a + 1)) with
      | .ok s ra =>
        if s = 429 ∨ s = 503 then
          if srvMaxAttempts ≤ a + 1 then ⟨.response s, a + 1, []⟩
          else
            let rest := srvLoopAux raw now fuel (a + 1)
            ⟨rest.result, rest.attempts, srvDelay (a + 1) ra now :: rest.delays⟩
        else ⟨.response s, a + 1, []⟩
      | .thrown t =>
        if srvMaxAttempts ≤ a + 1 then ⟨.raised t, a + 1, []⟩
        else
          let rest := srvLoopAux raw now fuel (a + 1)
          ⟨rest.result, rest.attempts, expBackoff (a + 1) :: rest.delays⟩ := rfl

theorem srvLoopAux_attempts_succ_ge (raw : Nat → SrvRaw) (now : Int)
    (fuel a : Nat) (hf : 1 ≤ fuel) :
    a + 1 ≤ (srvLoopAux raw now fuel a).attempts := by
  match fuel, hf with
  | f + 1, _ =>
    have hrec := srvLoopAux_attempts_ge raw now f (a + 1)
    rw [srvLoopAux]
    rcases srvAxiosGet (raw (a + 1)) with ⟨s, ra⟩ | t <;> dsimp only <;>
      split_ifs <;> dsimp only <;> omega

theorem cliLoopAux_step {V : Type} (raw : Nat → CliRaw V) (fuel a : Nat) :
    cliLoopAux raw (fuel + 1) a =
      match raw (a + 1) with
      | .success d => ⟨.ok d, a + 1, []⟩
      | .failure e =>
        if cliRetryable e = false ∨ cliMaxAttempts ≤ a + 1 then ⟨.raised e, a + 1, []⟩
        else
          let rest := cliLoopAux raw fuel (a + 1)
          ⟨rest.result, rest.attempts,
            (cliRetryAfterMs e).getD (expBackoff (a + 1)) :: rest.delays⟩ := rfl

theorem cliLoopAux_attempts_ge {V : Type} (raw : Nat → CliRaw V) :
    ∀ (fuel a : Nat), a ≤ (cliLoopAux raw fuel a).attempts := by
  intro fuel
  induction fuel with
  | zero => intro a; simp [cliLoopAux]
  | succ f ih =>
    intro a
    have hrec := ih (a + 1)
    rw [cliLoopAux]
    rcases raw (a + 1) with d | e <;> dsimp only
    · omega
    · split_ifs <;> dsimp only <;> omega

theorem cliLoopAux_attempts_succ_ge {V : Type} (raw : Nat → CliRaw V)
    (fuel a : Nat) (hf : 1 ≤ fuel) :
    a + 1 ≤ (cliLoopAux raw fuel a).attempts := by
  match fuel, hf with
  | f + 1, _ =>
    have hrec := cliLoopAux_attempts_ge raw f (a + 1)
    rw [cliLoopAux]
    rcases raw (a + 1) with d | e <;> dsimp only
    · omega
    · split_ifs <;> dsimp only <;> omega

/-- C3: for every attempt number, the delay with no Retry-After hint is
`min(8000, 500·2^(n-1))` ms; a positive numeric Retry-After is used
verbatim, converted from seconds to milliseconds; an absolute-timestamp
Retry-After is converted to a relative duration with negative results
clamped to zero. -/
theorem C3_backoff_policy :
    (∀ n : Nat, 1 ≤ n → n ≤ 4 → ∀ now : Int,
      srvDelay n absentHeader now = min 8000 (500 * 2 ^ (n - 1))) ∧
    (∀ (n : Nat) (now k : Int) (d : Option Int), 0 < k →
      srvDelay n ⟨true, some k, d⟩ now = k * 1000) ∧
    (∀ (n : Nat) (now t : Int),
      srvDelay n ⟨true, none, some t⟩ now = max (t - now) 0) := by
  refine ⟨?_, ?_, ?_⟩
  · intro n _ _ now
    simp [srvDelay, parseRetryAfterMs, absentHeader, expBackoff]
  · intro n now k d hk
    simp [srvDelay, parseRetryAfterMs, hk]
  · intro n now t
    have h : parseRetryAfterMs ⟨true, none, some t⟩ now
        = some (if 0 < t - now then t - now else 0) := rfl
    rw [srvDelay, h, Option.getD_some]
    split <;> omega

theorem C3_backoff_policy_witness :
    srvDelay 2 absentHeader 0 = 1000 ∧
    srvDelay 1 ⟨true, some 7, none⟩ 0 = 7000 ∧
    srvDelay 3 ⟨true, none, some 2⟩ 10 = 0 := by
  refine ⟨?_, ?_, ?_⟩
  · rw [C3_backoff_policy.1 2 (by norm_num) (by norm_num) 0]; decide
  · rw [C3_backoff_policy.2.1 1 0 7 none (by norm_num)]; norm_num
  · rw [C3_backoff_policy.2.2 3 10 2]; decide

/-- C2 counterexample: against the claim that any 4xx/5xx status other
than 429/503 is returned immediately with no further attempt, the server
fetcher retries a plain HTTP 500: with a 500 on attempt 1 and a 200 on
attempt 2, the run makes 2 attempts (sleeping one 500ms backoff) instead
of returning the 500 response at once. -/
theorem C2_counterexample :
    srvGetWithRetry
        (fun n => if n = 1 then SrvRaw.response 500 absentHeader
                  else SrvRaw.response 200 absentHeader) 0
      = ⟨.response 200, 2, [500]⟩ := by decide

/-- C2 (amended): the browser-side fetcher retries exactly on status
429/503, code ECONNABORTED, or a "Network Error" message, raising anything
else after a single attempt; the server-side fetcher returns any response
with status 200–499 other than 429 immediately after one attempt, but a
429 response, any response with status ≥ 500 (which `validateStatus`
converts into a thrown error — including plain 500s, not only 503), and
any network failure are all retried. -/
theorem C2_retry_classification :
    (∀ e : CliErr, cliRetryable e = true ↔
      (e.status = some 429 ∨ e.status = some 503 ∨
        e.code = some "ECONNABORTED" ∨ e.msgNetworkError = true)) ∧
    (∀ {V : Type} (raw : Nat → CliRaw V) (e : CliErr),
      raw 1 = CliRaw.failure e → cliRetryable e = false →
      cliGetWithRetry raw = ⟨.raised e, 1, []⟩) ∧
    (∀ {V : Type} (raw : Nat → CliRaw V) (e : CliErr),
      raw 1 = CliRaw.failure e → cliRetryable e = true →
      2 ≤ (cliGetWithRetry raw).attempts) ∧
    (∀ (raw : Nat → SrvRaw) (now : Int) (s : Nat) (ra : HeaderValue),
      raw 1 = SrvRaw.response s ra → 200 ≤ s → s < 500 → s ≠ 429 →
      srvGetWithRetry raw now = ⟨.response s, 1, []⟩) ∧
    (∀ (raw : Nat → SrvRaw) (now : Int) (ra : HeaderValue),
      raw 1 = SrvRaw.response 429 ra → 2 ≤ (srvGetWithRetry raw now).attempts) ∧
    (∀ (raw : Nat → SrvRaw) (now : Int) (s : Nat) (ra : HeaderValue),
      raw 1 = SrvRaw.response s ra → 500 ≤ s →
      2 ≤ (srvGetWithRetry raw now).attempts) ∧
    (∀ (raw : Nat → SrvRaw) (now : Int) (e : Nat),
      raw 1 = SrvRaw.netFail e → 2 ≤ (srvGetWithRetry raw now).attempts) := by
  refine ⟨?_, ?_, ?_, ?_, ?_, ?_, ?_⟩
  · intro e
    simp only [cliRetryable, Bool.or_eq_true, beq_iff_eq]
    tauto
  · intro V raw e h1 hret
    have e1 : cliGetWithRetry raw = cliLoopAux raw (3 + 1) 0 := rfl
    rw [e1, cliLoopAux_step, h1]
    dsimp only
    rw [if_pos (Or.inl hret)]
  · intro V raw e h1 hret
    have e1 : cliGetWithRetry raw = cliLoopAux raw (3 + 1) 0 := rfl
    rw [e1, cliLoopAux_step, h1]
    have hrec := cliLoopAux_attempts_succ_ge raw 3 (0 + 1) (by norm_num)
    dsimp only
    rw [if_neg (by simp [hret, cliMaxAttempts])]
    dsimp only
    omega
  · intro raw now s ra h1 h200 h500 h429
    have hval : srvValidateStatus s = true := by
      simp only [srvValidateStatus, Bool.and_eq_true, decide_eq_true_eq]
      omega
    have e1 : srvGetWithRetry raw now = srvLoopAux raw now (3 + 1) 0 := rfl
    rw [e1, srvLoopAux_step, h1]
    simp only [srvAxiosGet, hval, if_true]
    rw [if_neg (by omega)]
  · intro raw now ra h1
    have e1 : srvGetWithRetry raw now = srvLoopAux raw now (3 + 1) 0 := rfl
    rw [e1, srvLoopAux_step, h1]
    have hrec := srvLoopAux_attempts_succ_ge raw now 3 (0 + 1) (by norm_num)
    have hval : srvValidateStatus 429 = true := by decide
    simp only [srvAxiosGet, hval, if_true]
    rw [if_pos (Or.inl trivial), if_neg (by simp [srvMaxAttempts])]
    dsimp only
    omega
  · intro raw now s ra h1 h500
    have hval : srvValidateStatus s = false := by
      simp only [srvValidateStatus, Bool.and_eq_false_iff, decide_eq_false_iff_not]
      omega
    have e1 : srvGetWithRetry raw now = srvLoopAux raw now (3 + 1) 0 := rfl
    rw [e1, srvLoopAux_step, h1]
    have hrec := srvLoopAux_attempts_succ_ge raw now 3 (0 + 1) (by norm_num)
    simp only [srvAxiosGet, hval, Bool.false_eq_true, if_false]
    rw [if_neg (by simp [srvMaxAttempts])]
    dsimp only
    omega
  · intro raw now e h1
    have e1 : srvGetWithRetry raw now = srvLoopAux raw now (3 + 1) 0 := rfl
    rw [e1, srvLoopAux_step, h1]
    have hrec := srvLoopAux_attempts_succ_ge raw now 3 (0 + 1) (by norm_num)
    simp only [srvAxiosGet]
    rw [if_neg (by simp [srvMaxAttempts])]
    dsimp only
    omega

theorem C2_retry_classification_witness :
    cliGetWithRetry (V := Nat)
        (fun _ => CliRaw.failure ⟨some 404, none, false, ⟨false, none⟩⟩)
      = ⟨.raised ⟨some 404, none, false, ⟨false, none⟩⟩, 1, []⟩ ∧
    srvGetWithRetry (fun _ => SrvRaw.response 404 absentHeader) 0
      = ⟨.response 404, 1, []⟩ := by
  constructor
  · exact C2_retry_classification.2.1
      (fun _ => CliRaw.failure ⟨some 404, none, false, ⟨false, none⟩⟩)
      ⟨some 404, none, false, ⟨false, none⟩⟩ rfl (by decide)
  · exact C2_retry_classification.2.2.2.1
      (fun _ => SrvRaw.response 404 absentHeader) 0 404 absentHeader rfl
      (by norm_num) (by norm_num) (by norm_num)

theorem srvLoopAux_all_429 (raw : Nat → SrvRaw) (now : Int) (ra : Nat → HeaderValue)
    (h : ∀ n, raw n = SrvRaw.response 429 (ra n)) :
    ∀ (fuel a : Nat), a + fuel = srvMaxAttempts → 1 ≤ fuel →
      (srvLoopAux raw now fuel a).result = .response 429 ∧
      (srvLoopAux raw now fuel a).attempts = srvMaxAttempts := by
  intro fuel
  induction fuel with
  | zero => intro a _ hf; omega
  | succ f ih =>
    intro a ha _
    rw [srvLoopAux_step, h (a + 1)]
    have hval : srvValidateStatus 429 = true := by decide
    simp only [srvAxiosGet, hval, if_true]
    rw [if_pos (by simp)]
    by_cases hmax : srvMaxAttempts ≤ a + 1
    · rw [if_pos hmax]
      refine ⟨rfl, ?_⟩
      simp only [srvMaxAttempts] at ha hmax ⊢
      omega
    · rw [if_neg hmax]
      have hrec := ih (a + 1) (by omega) (by simp only [srvMaxAttempts] at ha hmax; omega)
      dsimp only
      exact hrec

theorem srvLoopAux_all_thrown (raw : Nat → SrvRaw) (now : Int) (t : Nat → SrvThrown)
    (h : ∀ n, srvAxiosGet (raw n) = .thrown (t n)) :
    ∀ (fuel a : Nat), a + fuel = srvMaxAttempts → 1 ≤ fuel →
      (srvLoopAux raw now fuel a).result = .raised (t srvMaxAttempts) ∧
      (srvLoopAux raw now fuel a).attempts = srvMaxAttempts := by
  intro fuel
  induction fuel with
  | zero => intro a _ hf; omega
  | succ f ih =>
    intro a ha _
    rw [srvLoopAux_step, h (a + 1)]
    dsimp only
    by_cases hmax : srvMaxAttempts ≤ a + 1
    · rw [if_pos hmax]
      have h4 : a + 1 = srvMaxAttempts := by
        simp only [srvMaxAttempts] at ha hmax ⊢
        omega
      exact ⟨by rw [h4], h4⟩
    · rw [if_neg hmax]
      have hrec := ih (a + 1) (by omega) (by simp only [srvMaxAttempts] at ha hmax; omega)
      dsimp only
      exact hrec

theorem cliLoopAux_all_retryable {V : Type} (raw : Nat → CliRaw V) (e : Nat → CliErr)
    (h : ∀ n, raw n = CliRaw.failure (e n)) (hret : ∀ n, cliRetryable (e n) = true) :
    ∀ (fuel a : Nat), a + fuel = cliMaxAttempts → 1 ≤ fuel →
      (cliLoopAux raw fuel a).result = .raised (e cliMaxAttempts) ∧
      (cliLoopAux raw fuel a).attempts = cliMaxAttempts := by
  intro fuel
  induction fuel with
  | zero => intro a _ hf; omega
  | succ f ih =>
    intro a ha _
    rw [cliLoopAux_step, h (a + 1)]
    dsimp only
    by_cases hmax : cliMaxAttempts ≤ a + 1
    · rw [if_pos (Or.inr hmax)]
      have h4 : a + 1 = cliMaxAttempts := by
        simp only [cliMaxAttempts] at ha hmax ⊢
        omega
      exact ⟨by rw [h4], h4⟩
    · rw [if_neg (by simp [hret (a + 1), hmax])]
      have hrec := ih (a + 1) (by omega) (by simp only [cliMaxAttempts] at ha hmax; omega)
      dsimp only
      exact hrec

/-- C4 counterexample: against the claim that a fetcher exhausting its
attempts on retryable status 429/503 returns the last response as a
response rather than raising, the server fetcher run on four straight 503
responses *raises* the thrown error (503 is rejected by `validateStatus`,
so every 503 travels the thrown-error path). -/
theorem C4_counterexample :
    srvGetWithRetry (fun _ => SrvRaw.response 503 absentHeader) 0
      = ⟨.raised (.httpStatus 503), 4, [500, 1000, 2000]⟩ := by decide

/-- C4 (amended): on exhausting all four attempts, the server fetcher
returns the last response as a response only for status 429; a 503
(rejected by `validateStatus`) and any network/timeout failure exhaust by
raising the last thrown error; the browser fetcher always raises the last
error on exhaustion, even for 429/503 statuses. -/
theorem C4_exhaustion_shape :
    (∀ (raw : Nat → SrvRaw) (now : Int) (ra : Nat → HeaderValue),
      (∀ n, raw n = SrvRaw.response 429 (ra n)) →
      (srvGetWithRetry raw now).result = .response 429 ∧
      (srvGetWithRetry raw now).attempts = 4) ∧
    (∀ (raw : Nat → SrvRaw) (now : Int) (t : Nat → SrvThrown),
      (∀ n, srvAxiosGet (raw n) = .thrown (t n)) →
      (srvGetWithRetry raw now).result = .raised (t 4) ∧
      (srvGetWithRetry raw now).attempts = 4) ∧
    (∀ {V : Type} (raw : Nat → CliRaw V) (e : Nat → CliErr),
      (∀ n, raw n = CliRaw.failure (e n)) → (∀ n, cliRetryable (e n) = true) →
      (cliGetWithRetry raw).result = .raised (e 4) ∧
      (cliGetWithRetry raw).attempts = 4) := by
  refine ⟨?_, ?_, ?_⟩
  · intro raw now ra h
    exact srvLoopAux_all_429 raw now ra h srvMaxAttempts 0 rfl (by norm_num [srvMaxAttempts])
  · intro raw now t h
    exact srvLoopAux_all_thrown raw now t h srvMaxAttempts 0 rfl (by norm_num [srvMaxAttempts])
  · intro V raw e h hret
    exact cliLoopAux_all_retryable raw e h hret cliMaxAttempts 0 rfl (by norm_num [cliMaxAttempts])

theorem C4_exhaustion_shape_witness :
    (srvGetWithRetry (fun _ => SrvRaw.response 429 absentHeader) 0).result
      = SrvResult.response 429 ∧
    (srvGetWithRetry (fun n => SrvRaw.netFail n) 0).result
      = SrvResult.raised (.net 4) ∧
    (cliGetWithRetry (V := Nat)
        (fun _ => CliRaw.failure ⟨some 429, none, false, ⟨false, none⟩⟩)).result
      = CliResult.raised ⟨some 429, none, false, ⟨false, none⟩⟩ := by
  refine ⟨?_, ?_, ?_⟩
  · exact (C4_exhaustion_shape.1 (fun _ => SrvRaw.response 429 absentHeader) 0
      (fun _ => absentHeader) (fun _ => rfl)).1
  · exact (C4_exhaustion_shape.2.1 (fun n => SrvRaw.netFail n) 0
      (fun n => SrvThrown.net n) (fun _ => rfl)).1
  · exact (C4_exhaustion_shape.2.2 (fun _ => CliRaw.failure ⟨some 429, none, false, ⟨false, none⟩⟩)
      (fun _ => ⟨some 429, none, false, ⟨false, none⟩⟩) (fun _ => rfl) (fun _ => rfl)).1

/-- C6: the server fetcher performs at most 4 upstream attempts for every
input, and a run with 429 on the first three attempts and success on the
fourth returns the success after exactly 3 backoff delays (no delay after
the final attempt). -/
theorem C6_attempt_bound :
    (∀ (raw : Nat → SrvRaw) (now : Int), (srvGetWithRetry raw now).attempts ≤ 4) ∧
    srvGetWithRetry
        (fun n => if n ≤ 3 then SrvRaw.response 429 absentHeader
                  else SrvRaw.response 200 absentHeader) 0
      = ⟨.response 200, 4, [500, 1000, 2000]⟩ := by
  constructor
  · intro raw now
    have h := srvLoopAux_attempts_le raw now srvMaxAttempts 0
    simpa [srvGetWithRetry, srvMaxAttempts] using h
  · decide

theorem ssUpstreamPhase_called {V : Type} (c : Cache V) (key : String)
    (now ttl : Int) (up : Upstream V) :
    (ssUpstreamPhase c key now ttl up).2.2 = true := by
  unfold ssUpstreamPhase
  split <;> rfl

theorem ssUpstreamPhase_err {V : Type} (c : Cache V) (key : String)
    (now ttl : Int) (up : Upstream V) (h : 400 ≤ up.status) :
    ssUpstreamPhase c key now ttl up = (.errEnvelope up.status up.data, c, true) := by
  unfold ssUpstreamPhase
  rw [if_pos h]

theorem ssUpstreamPhase_ok {V : Type} (c : Cache V) (key : String)
    (now ttl : Int) (up : Upstream V) (h : up.status < 400) :
    ssUpstreamPhase c key now ttl up
      = (.okBody up.data, cacheSet c key ⟨now + ttl, up.data⟩, true) := by
  unfold ssUpstreamPhase
  rw [if_neg (by omega)]

theorem ssFetchPhase_err_cache {V : Type} (c : Cache V) (key : String)
    (now ttl : Int) (up : Upstream V) (h : 400 ≤ up.status) :
    (ssFetchPhase c key now ttl up).2.1 = c := by
  unfold ssFetchPhase
  rcases cacheGet c key with _ | e <;> dsimp only
  · rw [ssUpstreamPhase_err c key now ttl up h]
  · by_cases hexp : e.expiresAt > now
    · rw [if_pos hexp]
    · rw [if_neg hexp, ssUpstreamPhase_err c key now ttl up h]

/-- C5: the handler serves from cache exactly when the stored entry's
expiry is strictly in the future; an expired or missing entry triggers the
upstream call; on an upstream status ≥ 400 the cache is left untouched (in
particular an expired entry is not evicted), entries are written only for
statuses < 400, and an error followed by a success on the same key leaves
the success as the cached value. -/
theorem C5_cache_semantics :
    (∀ {V : Type} (c : Cache V) (key : String) (now ttl : Int) (up : Upstream V),
      ((ssFetchPhase c key now ttl up).2.2 = false ↔
        ∃ e, cacheGet c key = some e ∧ now < e.expiresAt)) ∧
    (∀ {V : Type} (c : Cache V) (key : String) (now ttl : Int) (up : Upstream V)
      (e : CacheEntry V), cacheGet c key = some e → now < e.expiresAt →
      ssFetchPhase c key now ttl up = (.okBody e.value, c, false)) ∧
    (∀ {V : Type} (c : Cache V) (key : String) (now ttl : Int) (up : Upstream V),
      400 ≤ up.status → (ssFetchPhase c key now ttl up).2.1 = c) ∧
    (∀ {V : Type} (c : Cache V) (key : String) (now ttl : Int) (up : Upstream V),
      up.status < 400 → (ssFetchPhase c key now ttl up).2.2 = true →
      cacheGet (ssFetchPhase c key now ttl up).2.1 key = some ⟨now + ttl, up.data⟩) ∧
    (∀ {V : Type} (c : Cache V) (key : String) (now1 now2 ttl : Int)
      (bad good : Upstream V),
      400 ≤ bad.status → good.status < 400 → cacheGet c key = none →
      cacheGet (ssFetchPhase (ssFetchPhase c key now1 ttl bad).2.1 key
          now2 ttl good).2.1 key
        = some ⟨now2 + ttl, good.data⟩) := by
  refine ⟨?_, ?_, ?_, ?_, ?_⟩
  · intro V c key now ttl up
    unfold ssFetchPhase
    rcases hget : cacheGet c key with _ | e <;> dsimp only
    · rw [ssUpstreamPhase_called]
      simp
    · by_cases hexp : e.expiresAt > now
      · rw [if_pos hexp]
        exact ⟨fun _ => ⟨e, rfl, hexp⟩, fun _ => rfl⟩
      · rw [if_neg hexp, ssUpstreamPhase_called]
        constructor
        · intro h
          exact absurd h (by simp)
        · rintro ⟨e', he', hlt⟩
          rw [Option.some_inj] at he'
          exact absurd (he' ▸ hlt) hexp
  · intro V c key now ttl up e hget hexp
    unfold ssFetchPhase
    rw [hget]
    dsimp only
    rw [if_pos (show e.expiresAt > now from hexp)]
  · intro V c key now ttl up hstatus
    exact ssFetchPhase_err_cache c key now ttl up hstatus
  · intro V c key now ttl up hstatus hcalled
    unfold ssFetchPhase at hcalled ⊢
    rcases hget : cacheGet c key with _ | e <;> rw [hget] at hcalled <;> dsimp only at hcalled ⊢
    · rw [ssUpstreamPhase_ok c key now ttl up hstatus]
      simp [cacheGet, cacheSet, List.lookup]
    · by_cases hexp : e.expiresAt > now
      · rw [if_pos hexp] at hcalled
        exact absurd hcalled (by simp)
      · rw [if_neg hexp, ssUpstreamPhase_ok c key now ttl up hstatus]
        simp [cacheGet, cacheSet, List.lookup]
  · intro V c key now1 now2 ttl bad good hbad hgood hnone
    rw [ssFetchPhase_err_cache c key now1 ttl bad hbad]
    unfold ssFetchPhase
    rw [hnone]
    dsimp only
    rw [ssUpstreamPhase_ok c key now2 ttl good hgood]
    simp [cacheGet, cacheSet, List.lookup]

theorem C5_cache_semantics_witness :
    ssFetchPhase [("k", ⟨10, 7⟩)] "k" 5 20000 (Upstream.mk 200 (1 : Nat))
      = (.okBody 7, [("k", ⟨10, 7⟩)], false) ∧
    (ssFetchPhase (V := Nat) [("k", ⟨10, 7⟩)] "k" 5 20000 ⟨500, 1⟩).2.1
      = [("k", ⟨10, 7⟩)] ∧
    cacheGet (ssFetchPhase (ssFetchPhase (V := Nat) [] "k" 0 20000 ⟨500, 9⟩).2.1
        "k" 1 20000 ⟨200, 3⟩).2.1 "k"
      = some ⟨1 + 20000, 3⟩ := by
  refine ⟨?_, ?_, ?_⟩
  · exact C5_cache_semantics.2.1 [("k", ⟨10, 7⟩)] "k" 5 20000 ⟨200, 1⟩ ⟨10, 7⟩
      (by simp [cacheGet]) (by norm_num)
  · exact C5_cache_semantics.2.2.1 [("k", ⟨10, 7⟩)] "k" 5 20000 ⟨500, 1⟩ (by norm_num)
  · exact C5_cache_semantics.2.2.2.2 [] "k" 0 1 20000 ⟨500, 9⟩ ⟨200, 3⟩
      (by norm_num) (by norm_num) (by simp [cacheGet])

/-- C8: the effective limit is at most 100 and defaults to 10 when the
parameter is absent or non-numeric; the effective offset is at least 0; a
search request whose trimmed query is empty, and a detail request whose
trimmed paper id is empty, get HTTP 400 with no upstream call. -/
theorem C8_validation_clamping :
    (∀ p, effLimit p ≤ 100) ∧
    effLimit .absent = 10 ∧ effLimit .nonNumeric = 10 ∧
    (∀ p, 0 ≤ effOffset p) ∧
    (∀ {V : Type} (q : Option String) (lp op : QueryParam) (c : Cache V)
      (now : Int) (up : Upstream V), jsTrim (q.getD "") = "" →
      ssSearchHandler q lp op c now up = (400, c, false)) ∧
    (∀ {V : Type} (pid : Option String) (c : Cache V)
      (now : Int) (up : Upstream V), jsTrim (pid.getD "") = "" →
      ssPaperHandler pid c now up = (400, c, false)) := by
  refine ⟨?_, rfl, rfl, ?_, ?_, ?_⟩
  · intro p
    rcases p with _ | _ | n <;> simp only [effLimit] <;> omega
  · intro p
    rcases p with _ | _ | n <;> simp only [effOffset] <;> omega
  · intro V q lp op c now up h
    simp [ssSearchHandler, h]
  · intro V pid c now up h
    simp [ssPaperHandler, h]

theorem C8_validation_clamping_witness :
    effLimit (.numeric 500) = 100 ∧ 0 ≤ effOffset (.numeric (-3)) ∧
    ssSearchHandler (V := Nat) (some "   ") .absent .absent [] 0 ⟨200, 1⟩
      = (400, [], false) ∧
    ssPaperHandler (V := Nat) none [] 0 ⟨200, 1⟩ = (400, [], false) := by
  refine ⟨by decide, ?_, ?_, ?_⟩
  · exact C8_validation_clamping.2.2.2.1 (.numeric (-3))
  · exact C8_validation_clamping.2.2.2.2.1 (some "   ") .absent .absent [] 0 ⟨200, 1⟩ rfl
  · exact C8_validation_clamping.2.2.2.2.2 none [] 0 ⟨200, 1⟩ rfl

theorem resolveGo_spec (ex : String → Bool) (base ext : String) :
    ∀ (fuel i k : Nat), k < fuel →
      ex (candidateName base ext (i + k)) = false →
      (∀ j, j < k → ex (candidateName base ext (i + j)) = true) →
      resolveGo ex base ext fuel i = .ok (candidateName base ext (i + k)) := by
  intro fuel
  induction fuel with
  | zero => intro i k hk _ _; omega
  | succ f ih =>
    intro i k hk hfalse hall
    rw [resolveGo]
    by_cases h0 : k = 0
    · subst h0
      rw [if_pos (by simpa using hfalse), Nat.add_zero]
    · obtain ⟨k', rfl⟩ : ∃ k', k = k' + 1 := ⟨k - 1, by omega⟩
      have h1 : ex (candidateName base ext i) = true := by
        simpa using hall 0 (by omega)
      rw [if_neg (by simp [h1])]
      have hres := ih (i + 1) k' (by omega)
        (by rw [show i + 1 + k' = i + (k' + 1) from by omega]; exact hfalse)
        (fun j hj => by
          rw [show i + 1 + j = i + (j + 1) from by omega]
          exact hall (j + 1) (by omega))
      rw [hres, show i + 1 + k' = i + (k' + 1) from by omega]

theorem resolveGo_exhausted (ex : String → Bool) (base ext : String) :
    ∀ (fuel i : Nat), (∀ j, j < fuel → ex (candidateName base ext (i + j)) = true) →
      resolveGo ex base ext fuel i = .error () := by
  intro fuel
  induction fuel with
  | zero => intro i _; rfl
  | succ f ih =>
    intro i hall
    rw [resolveGo]
    have h1 : ex (candidateName base ext i) = true := by
      simpa using hall 0 (by omega)
    rw [if_neg (by simp [h1])]
    exact ih (i + 1) (fun j hj => by
      rw [show i + 1 + j = i + (j + 1) from by omega]
      exact hall (j + 1) (by omega))

theorem resolveGo_congr (ex ex' : String → Bool) (base ext : String)
    (h : ∀ j, ex (candidateName base ext j) = ex' (candidateName base ext j)) :
    ∀ fuel i, resolveGo ex base ext fuel i = resolveGo ex' base ext fuel i := by
  intro fuel
  induction fuel with
  | zero => intro i; rfl
  | succ f ih =>
    intro i
    rw [resolveGo, resolveGo, h i]
    split
    · rfl
    · exact ih (i + 1)

/-- C9: the resolver probes `base.pdf`, `base(1).pdf`, `base(2).pdf`, … in
order, returns the first candidate whose existence check is false, tries
at most 999 candidates, and errors when all of them exist; with `base.pdf`
and `base(1).pdf` existing and `base(2).pdf` free, it returns
`base(2).pdf`. -/
theorem C9_blob_name_resolution :
    (∀ (ex : String → Bool) (base ext : String) (i : Nat), i < 999 →
      ex (candidateName base ext i) = false →
      (∀ j, j < i → ex (candidateName base ext j) = true) →
      resolveUniqueBlobName ex base ext = .ok (candidateName base ext i)) ∧
    (∀ (ex : String → Bool) (base ext : String),
      (∀ i, i < 999 → ex (candidateName base ext i) = true) →
      resolveUniqueBlobName ex base ext = .error ()) ∧
    resolveUniqueBlobName
        (fun s => s == "base.pdf" || s == "base(1).pdf") "base" ".pdf"
      = .ok "base(2).pdf" := by
  have hconc : resolveUniqueBlobName
      (fun s => s == "base.pdf" || s == "base(1).pdf") "base" ".pdf"
      = .ok "base(2).pdf" := rfl
  refine ⟨?_, ?_, hconc⟩
  · intro ex base ext i hi hfalse hall
    have := resolveGo_spec ex base ext 999 0 i hi (by simpa using hfalse)
      (fun j hj => by simpa using hall j hj)
    simpa [resolveUniqueBlobName] using this
  · intro ex base ext hall
    exact resolveGo_exhausted ex base ext 999 0 (fun j hj => by simpa using hall j hj)

theorem C9_blob_name_resolution_witness :
    resolveUniqueBlobName
        (fun s => s == "x.pdf" || s == "x(1).pdf" || s == "x(2).pdf") "x" ".pdf"
      = .ok (candidateName "x" ".pdf" 3) :=
  C9_blob_name_resolution.1
    (fun s => s == "x.pdf" || s == "x(1).pdf" || s == "x(2).pdf") "x" ".pdf" 3
    (by norm_num)
    (by decide)
    (fun j hj => by interval_cases j <;> decide)

theorem asString_toList (s : String) : s.toList.asString = s := rfl

theorem pdfToJsonName_append (s : String) : pdfToJsonName (s ++ ".pdf") = s ++ ".json" := by
  have hdata : (s ++ ".pdf").toList = s.toList ++ ['.', 'p', 'd', 'f'] := by
    show (s ++ ".pdf").data = s.data ++ ['.', 'p', 'd', 'f']
    rw [String.data_append]
  have hm : pdfExtMatch (s.toList ++ ['.', 'p', 'd', 'f']) = true := by
    unfold pdfExtMatch
    rw [List.reverse_append]
    rfl
  have htake : (s.toList ++ ['.', 'p', 'd', 'f']).take
      ((s.toList ++ ['.', 'p', 'd', 'f']).length - 4) = s.toList := by
    rw [List.length_append,
      show s.toList.length + (['.', 'p', 'd', 'f'] : List Char).length - 4
        = s.toList.length from by simp,
      List.take_left]
  unfold pdfToJsonName
  rw [hdata, if_pos hm, htake, asString_toList]

/-- C10: blob-name resolution consults storage only on the `.pdf`
candidate names; the JSON blob name is the resolved PDF name with `.pdf`
replaced by `.json` and is uploaded without its own existence check, so
when a `.json` blob exists whose `.pdf` sibling does not, the pre-existing
`.json` blob is silently overwritten. -/
theorem C10_json_overwrite :
    (∀ (st st' : Storage) (base : String),
      (∀ j, blobExists st (candidateName base ".pdf" j)
          = blobExists st' (candidateName base ".pdf" j)) →
      resolveUniqueBlobName (blobExists st) base ".pdf"
        = resolveUniqueBlobName (blobExists st') base ".pdf") ∧
    (∀ s : String, pdfToJsonName (s ++ ".pdf") = s ++ ".json") ∧
    (∀ (st : Storage) (base : String) (pdfBytes jsonBytes : List Nat),
      blobExists st (base ++ ".pdf") = false →
      ∃ st2, storeUploadPhase st base pdfBytes jsonBytes
          = .ok (st2, base ++ ".pdf", base ++ ".json")
        ∧ st2 (base ++ ".json") = some jsonBytes) ∧
    ((storeUploadPhase (fun n => if n = "b.json" then some [1] else none)
          "b" [0] [2]).toOption.map
        (fun r => (r.2.1, r.2.2, r.1 "b.json", r.1 "b.pdf"))
      = some ("b.pdf", "b.json", some [2], some [0])) := by
  refine ⟨?_, pdfToJsonName_append, ?_, ?_⟩
  · intro st st' base h
    exact resolveGo_congr (blobExists st) (blobExists st') base ".pdf" h 999 0
  · intro st base pdfBytes jsonBytes hfree
    have hres : resolveUniqueBlobName (blobExists st) base ".pdf"
        = .ok (candidateName base ".pdf" 0) := by
      unfold resolveUniqueBlobName
      rw [resolveGo, if_pos (by simpa [candidateName] using hfree)]
    unfold storeUploadPhase
    rw [hres]
    have hcand : candidateName base ".pdf" 0 = base ++ ".pdf" := by
      simp [candidateName]
    rw [hcand]
    dsimp only
    rw [pdfToJsonName_append]
    exact ⟨_, rfl, by simp [blobUpload]⟩
  · decide

theorem C10_json_overwrite_witness :
    resolveUniqueBlobName
        (blobExists (fun n => if n = "w.json" then some [5] else none)) "w" ".pdf"
      = resolveUniqueBlobName (blobExists (fun _ => none)) "w" ".pdf" ∧
    (∃ st2, storeUploadPhase (fun n => if n = "w.json" then some [5] else none)
        "w" [7] [8] = .ok (st2, "w" ++ ".pdf", "w" ++ ".json")
      ∧ st2 ("w" ++ ".json") = some [8]) := by
  constructor
  · refine C10_json_overwrite.1 (fun n => if n = "w.json" then some [5] else none)
      (fun _ => none) "w" ?_
    intro j
    rcases Nat.eq_zero_or_pos j with rfl | hj
    · decide
    · simp only [blobExists, candidateName, if_neg (by omega : ¬ j = 0)]
      have hne : ("w" ++ "(" ++ (natDigits j).asString ++ ")" ++ ".pdf") ≠ "w.json" := by
        intro heq
        have hlen := congrArg String.length heq
        simp only [String.length_append] at hlen
        have hlen2 : ((natDigits j).asString).length = (natDigits j).length := rfl
        have hpos : 0 < (natDigits j).length :=
          List.length_pos.mpr (natDigits_ne_nil j)
        rw [hlen2] at hlen
        have h6 : ("w.json" : String).length = 6 := rfl
        have h1 : ("w" : String).length = 1 := rfl
        have h2 : ("(" : String).length = 1 := rfl
        have h3 : (")" : String).length = 1 := rfl
        have h4 : (".pdf" : String).length = 4 := rfl
        rw [h6, h1, h2, h3, h4] at hlen
        omega
      rw [if_neg hne]
  · exact C10_json_overwrite.2.2.1 (fun n => if n = "w.json" then some [5] else none)
      "w" [7] [8] (by decide)

/-- C1: (a) truthy precomputed base64 bytes are decoded (data-URL prefix
stripped) and returned with no network request; (b) a direct GET whose
terminal status lies in 2xx–3xx succeeds with the body after exactly that
one request; (c) a thrown 403 on an MDPI pdf URL triggers the landing-page
fetch, cookie harvest, and a retry of the original URL carrying those
cookies and the landing page as Referer, whose 2xx–3xx success is
returned; (d) a rejected non-403 status, a 403 on a non-matching URL, and
a network failure each propagate after the single direct request, with no
fallback. -/
theorem C1_pdf_acquisition :
    (∀ (net : Request → RawResult) (u : UrlParts) (paperUrl : Option String)
      (b64 : String), b64 ≠ "" →
      acquirePdf net (some b64) u paperUrl
        = (.ok (base64Decode (stripDataUrl b64)), [])) ∧
    (∀ (net : Request → RawResult) (u : UrlParts) (paperUrl : Option String)
      (s : Nat) (body : List Nat) (ck : List String),
      net (directRequest u paperUrl) = .response s body ck → 200 ≤ s → s < 400 →
      downloadPdfWithFallback net u paperUrl = (.ok body, [directRequest u paperUrl])) ∧
    (∀ (net : Request → RawResult) (u : UrlParts) (paperUrl : Option String)
      (body : List Nat) (ck : List String) (s2 : Nat) (body2 : List Nat)
      (ck2 : List String) (s3 : Nat) (body3 : List Nat) (ck3 : List String),
      net (directRequest u paperUrl) = .response 403 body ck →
      isMdpiPdfUrl u = true →
      net (landingRequest u) = .response s2 body2 ck2 → 200 ≤ s2 → s2 < 400 →
      net (retryRequest u ck2) = .response s3 body3 ck3 → 200 ≤ s3 → s3 < 400 →
      downloadPdfWithFallback net u paperUrl
        = (.ok body3,
            [directRequest u paperUrl, landingRequest u, retryRequest u ck2])) ∧
    (∀ (u : UrlParts) (setCookie : List String),
      (retryRequest u setCookie).url = u.raw ∧
      (retryRequest u setCookie).referer = stripPdfSuffix u.raw ∧
      (cookieHeaderOf setCookie ≠ "" →
        (retryRequest u setCookie).cookie = some (joinCookieParts setCookie))) ∧
    (∀ (net : Request → RawResult) (u : UrlParts) (paperUrl : Option String)
      (s : Nat) (body : List Nat) (ck : List String),
      net (directRequest u paperUrl) = .response s body ck →
      pdfValidateStatus s = false → s ≠ 403 →
      downloadPdfWithFallback net u paperUrl
        = (.error (.httpStatus s), [directRequest u paperUrl])) ∧
    (∀ (net : Request → RawResult) (u : UrlParts) (paperUrl : Option String)
      (body : List Nat) (ck : List String),
      net (directRequest u paperUrl) = .response 403 body ck →
      isMdpiPdfUrl u = false →
      downloadPdfWithFallback net u paperUrl
        = (.error (.httpStatus 403), [directRequest u paperUrl])) ∧
    (∀ (net : Request → RawResult) (u : UrlParts) (paperUrl : Option String),
      net (directRequest u paperUrl) = .netFail →
      downloadPdfWithFallback net u paperUrl
        = (.error .net, [directRequest u paperUrl])) := by
  refine ⟨?_, ?_, ?_, ?_, ?_, ?_, ?_⟩
  · intro net u paperUrl b64 hb
    simp [acquirePdf, hb]
  · intro net u paperUrl s body ck h h200 h400
    have hval : pdfValidateStatus s = true := by
      simp only [pdfValidateStatus, Bool.and_eq_true, decide_eq_true_eq]
      omega
    have hax : axRequest net (directRequest u paperUrl) = .ok s body ck := by
      unfold axRequest
      rw [h]
      dsimp only
      rw [if_pos hval]
    unfold downloadPdfWithFallback
    rw [hax]
  · intro net u paperUrl body ck s2 body2 ck2 s3 body3 ck3
      hdir hmdpi hland h2a h2b hretry h3a h3b
    have hax1 : axRequest net (directRequest u paperUrl) = .errStatus 403 := by
      unfold axRequest
      rw [hdir]
      dsimp only
      rw [if_neg (by decide)]
    have hax2 : axRequest net (landingRequest u) = .ok s2 body2 ck2 := by
      unfold axRequest
      rw [hland]
      dsimp only
      rw [if_pos (by simp only [pdfValidateStatus, Bool.and_eq_true, decide_eq_true_eq]; omega)]
    have hax3 : axRequest net (retryRequest u ck2) = .ok s3 body3 ck3 := by
      unfold axRequest
      rw [hretry]
      dsimp only
      rw [if_pos (by simp only [pdfValidateStatus, Bool.and_eq_true, decide_eq_true_eq]; omega)]
    unfold downloadPdfWithFallback
    rw [hax1]
    dsimp only
    rw [if_pos ⟨rfl, hmdpi⟩, hax2]
    dsimp only
    rw [hax3]
  · intro u setCookie
    refine ⟨rfl, rfl, ?_⟩
    intro hne
    unfold retryRequest
    dsimp only
    rw [if_pos hne]
    rcases setCookie with _ | ⟨c, rest⟩
    · exact absurd rfl hne
    · simp [cookieHeaderOf]
  · intro net u paperUrl s body ck h hval hs
    have hax : axRequest net (directRequest u paperUrl) = .errStatus s := by
      unfold axRequest
      rw [h]
      dsimp only
      rw [if_neg (by simp [hval])]
    unfold downloadPdfWithFallback
    rw [hax]
    dsimp only
    rw [if_neg (by simp [hs])]
  · intro net u paperUrl body ck h hmdpi
    have hax : axRequest net (directRequest u paperUrl) = .errStatus 403 := by
      unfold axRequest
      rw [h]
      dsimp only
      rw [if_neg (by decide)]
    unfold downloadPdfWithFallback
    rw [hax]
    dsimp only
    rw [if_neg (by simp [hmdpi])]
  · intro net u paperUrl h
    have hax : axRequest net (directRequest u paperUrl) = .errNet := by
      unfold axRequest
      rw [h]
    unfold downloadPdfWithFallback
    rw [hax]

theorem C1_pdf_acquisition_witness :
    acquirePdf (fun _ => RawResult.netFail)
        (some "data:application/pdf;base64,TWFu")
        ⟨true, "www.mdpi.com", "/1/2/pdf", "https://www.mdpi.com/1/2/pdf"⟩ none
      = (.ok [77, 97, 110], []) ∧
    downloadPdfWithFallback
        (fun r =>
          if r = directRequest
              ⟨true, "www.mdpi.com", "/1/2/pdf", "https://www.mdpi.com/1/2/pdf"⟩
              (some "https://paper.example/") then
            RawResult.response 403 [] []
          else if r = landingRequest
              ⟨true, "www.mdpi.com", "/1/2/pdf", "https://www.mdpi.com/1/2/pdf"⟩ then
            RawResult.response 200 [1] ["sid=1; Path=/", "t=2"]
          else if r = retryRequest
              ⟨true, "www.mdpi.com", "/1/2/pdf", "https://www.mdpi.com/1/2/pdf"⟩
              ["sid=1; Path=/", "t=2"] then
            RawResult.response 200 [9, 9] []
          else RawResult.netFail)
        ⟨true, "www.mdpi.com", "/1/2/pdf", "https://www.mdpi.com/1/2/pdf"⟩
        (some "https://paper.example/")
      = (.ok [9, 9],
          [directRequest ⟨true, "www.mdpi.com", "/1/2/pdf", "https://www.mdpi.com/1/2/pdf"⟩
            (some "https://paper.example/"),
           landingRequest ⟨true, "www.mdpi.com", "/1/2/pdf", "https://www.mdpi.com/1/2/pdf"⟩,
           retryRequest ⟨true, "www.mdpi.com", "/1/2/pdf", "https://www.mdpi.com/1/2/pdf"⟩
            ["sid=1; Path=/", "t=2"]]) ∧
    downloadPdfWithFallback (fun _ => RawResult.response 404 [] [])
        ⟨true, "www.mdpi.com", "/1/2/pdf", "https://www.mdpi.com/1/2/pdf"⟩ none
      = (.error (.httpStatus 404),
          [directRequest ⟨true, "www.mdpi.com", "/1/2/pdf", "https://www.mdpi.com/1/2/pdf"⟩
            none]) := by
  refine ⟨?_, ?_, ?_⟩
  · rw [C1_pdf_acquisition.1 (fun _ => RawResult.netFail)
      ⟨true, "www.mdpi.com", "/1/2/pdf", "https://www.mdpi.com/1/2/pdf"⟩ none
      "data:application/pdf;base64,TWFu" (by decide)]
    rfl
  · exact C1_pdf_acquisition.2.2.1 _
      ⟨true, "www.mdpi.com", "/1/2/pdf", "https://www.mdpi.com/1/2/pdf"⟩
      (some "https://paper.example/") [] [] 200 [1] ["sid=1; Path=/", "t=2"]
      200 [9, 9] [] (by decide) (by decide) (by decide) (by decide) (by decide)
      (by decide) (by decide) (by decide)
  · exact C1_pdf_acquisition.2.2.2.2.1 (fun _ => RawResult.response 404 [] [])
      ⟨true, "www.mdpi.com", "/1/2/pdf", "https://www.mdpi.com/1/2/pdf"⟩ none
      404 [] [] (by decide) (by decide) (by decide)

end KkmPaper
